import Mathlib

/-!
# fax-ui — a shallow embedding of the media-store / session-auth core

Go strings are byte strings, so every Go `string` and `[]byte` is modelled
as `List Nat` (each element a byte value).  Wall-clock instants are `Nat`
seconds; `time.Now().Add(30*time.Minute)` becomes `now + 30 * 60`.
The `crypto/rand` source is modelled as an `Option Bytes` argument:
`some bs` means `rand.Read` filled the buffer with `bs`, `none` means the
entropy source failed (the error case of `rand.Read`).
The mutex-guarded Go map `App.uploadedFiles` is an association list with
unique keys; the read/write lock serialises every access in the source, so
each handler is a pure state transformer on that list.
-/

namespace FaxUI

/-- Go byte strings. -/
abbrev Bytes := List Nat

/-! ## Byte-string constants (ASCII) -/

/-- ASCII bytes of the string "application/octet-stream". -/
def octetStream : Bytes :=
  [97, 112, 112, 108, 105, 99, 97, 116, 105, 111, 110, 47,
   111, 99, 116, 101, 116, 45, 115, 116, 114, 101, 97, 109]

/-- ASCII bytes of "/media/" (the URL segment in `fmt.Sprintf("%s/media/%s", ...)`). -/
def mediaSeg : Bytes := [47, 109, 101, 100, 105, 97, 47]

/-- ASCII bytes of "change-me-" (the session-secret derivation in `LoadConfig`). -/
def changeMe : Bytes := [99, 104, 97, 110, 103, 101, 45, 109, 101, 45]

/-- ASCII bytes of "application/pdf". -/
def appPdf : Bytes := [97, 112, 112, 108, 105, 99, 97, 116, 105, 111, 110, 47, 112, 100, 102]

/-- ASCII bytes of ".pdf". -/
def dotPdf : Bytes := [46, 112, 100, 102]

/-- ASCII bytes of "image/tiff". -/
def imgTiff : Bytes := [105, 109, 97, 103, 101, 47, 116, 105, 102, 102]

/-- ASCII bytes of ".tiff". -/
def dotTiff : Bytes := [46, 116, 105, 102, 102]

/-! ## Small Go string helpers (auth.go, handlers.go) -/

/-- `strings.HasPrefix(s, pre)`. -/
def hasPrefixB : Bytes → Bytes → Bool
  | _, [] => true
  | [], _ :: _ => false
  | c :: s, p :: ps => c == p && hasPrefixB s ps

/-- `trimTrailingSlash` (auth.go): drop trailing byte 47 one at a time. -/
def trimTrailingSlash (s : Bytes) : Bytes :=
  (s.reverse.dropWhile (fun c => c == 47)).reverse

/-- A single lowercase hex digit, as in `encoding/hex`. -/
def hexDigit (n : Nat) : Nat := if n < 10 then 48 + n else 87 + n

/-- `hex.EncodeToString` over a byte list. -/
def hexEncode (b : Bytes) : Bytes :=
  b.foldr (fun x acc => hexDigit (x / 16) :: hexDigit (x % 16) :: acc) []

/-! ## Go map model

`App.uploadedFiles` is a Go map guarded by `memMu`; we model it as an
association list that is kept duplicate-free by construction: assignment
(`m[k] = v`) erases the old binding and prepends the new one, and
`delete(m, k)` erases the binding. -/

/-- Go map lookup `v, ok := m[k]`. -/
def lookupKey {α : Type} (k : Bytes) : List (Bytes × α) → Option α
  | [] => none
  | (k2, v) :: rest => if k2 = k then some v else lookupKey k rest

/-- Go `delete(m, k)`. -/
def eraseKey {α : Type} (k : Bytes) : List (Bytes × α) → List (Bytes × α)
  | [] => []
  | (k2, v) :: rest => if k2 = k then eraseKey k rest else (k2, v) :: eraseKey k rest

/-- Go map assignment `m[k] = v`. -/
def setKey {α : Type} (k : Bytes) (v : α) (m : List (Bytes × α)) : List (Bytes × α) :=
  (k, v) :: eraseKey k m

/-! ## The uploaded-file entry (auth.go `uploadedFile`) -/

/-- `uploadedFile` (auth.go): the Go fields `Data`, `Type`, `ExpiresAt`
(`Type` is renamed `ctype`, as `Type` is not a valid Lean field name). -/
structure UploadedFile where
  data : Bytes
  ctype : Bytes
  expiresAt : Nat
deriving DecidableEq, Repr

/-- The in-memory token → entry map. -/
abbrev MemFiles := List (Bytes × UploadedFile)

/-- `generateSecureToken(length)` (auth.go): `rand.Read` then hex-encode.
`none` randomness is the `rand.Read` error, which the Go function returns. -/
def generateSecureToken (byteLength : Nat) (rand : Option Bytes) : Except Unit Bytes :=
  match rand with
  | none => Except.error ()
  | some b => Except.ok (hexEncode (b.take byteLength))

/-- `storeFileInMemory` (auth.go): buffer the payload, draw a 32-byte token,
default an absent content type to "application/octet-stream", insert the
entry with expiry `now + 30*60`, and return the public URL
`trimTrailingSlash(base) + "/media/" + token`. -/
def storeFileInMemory (rand : Option Bytes) (now : Nat) (publicBaseURL : Bytes)
    (fileData ctypeHeader : Bytes) (files : MemFiles) :
    Except Unit (Bytes × MemFiles) :=
  match generateSecureToken 32 rand with
  | Except.error e => Except.error e
  | Except.ok token =>
    let ctype := if ctypeHeader = [] then octetStream else ctypeHeader
    Except.ok (trimTrailingSlash publicBaseURL ++ mediaSeg ++ token,
      setKey token (UploadedFile.mk fileData ctype (now + 30 * 60)) files)

/-- The outcome of `handleMediaServe` on the wire: 404, or a body with an
optional explicit Content-Type header (the header is set only when the
stored `Type` is non-empty, per handlers.go). -/
inductive ServeResult where
  | notFound
  | content (data : Bytes) (ctypeHeader : Option Bytes)
deriving DecidableEq, Repr

/-- The memory branch of `handleMediaServe` (handlers.go): look the token up;
absent → 404; present but `time.Now().After(ExpiresAt)` → delete and 404
(lazy expiry); otherwise serve the bytes with the stored content type. -/
def serveFromMemory (now : Nat) (token : Bytes) (files : MemFiles) :
    ServeResult × MemFiles :=
  match lookupKey token files with
  | none => (ServeResult.notFound, files)
  | some f =>
    if f.expiresAt < now then (ServeResult.notFound, eraseKey token files)
    else (ServeResult.content f.data (if f.ctype = [] then none else some f.ctype), files)

/-- `cleanupExpiredFiles` (auth.go): one sweep at time `now` deletes every
entry with `now.After(ExpiresAt)`, i.e. `ExpiresAt < now`. -/
def cleanupExpiredFiles (now : Nat) : MemFiles → MemFiles
  | [] => []
  | e :: rest =>
    if e.2.expiresAt < now then cleanupExpiredFiles now rest
    else e :: cleanupExpiredFiles now rest

/-! ## Disk storage (auth.go `storeFileToDisk`) -/

/-- The tail of Go `filepath.Ext`: scan the reversed path; a separator byte
ends the scan with no extension, a dot yields the suffix from that dot. -/
def extSearch : Bytes → Bytes → Bytes
  | [], _ => []
  | c :: rest, acc =>
    if c = 47 then []
    else if c = 46 then 46 :: acc
    else extSearch rest (c :: acc)

/-- Go `filepath.Ext`. -/
def fileExt (p : Bytes) : Bytes := extSearch p.reverse []

/-- The on-disk files, keyed by filename inside the upload directory. -/
abbrev DiskFiles := List (Bytes × Bytes)

/-- `storeFileToDisk` (auth.go): draw a 32-byte token; derive the extension
from the original filename, else from the content type ("application/pdf"
→ ".pdf", "image/tiff" → ".tiff", else none); write the payload under
`token+ext`; return `trimTrailingSlash(base) + "/media/" + token+ext`. -/
def storeFileToDisk (rand : Option Bytes) (publicBaseURL : Bytes)
    (fileData ctypeHeader origFilename : Bytes) (disk : DiskFiles) :
    Except Unit (Bytes × DiskFiles) :=
  match generateSecureToken 32 rand with
  | Except.error e => Except.error e
  | Except.ok token =>
    let ext0 := fileExt origFilename
    let ext := if ext0 = [] then
        (if ctypeHeader = appPdf then dotPdf
         else if ctypeHeader = imgTiff then dotTiff else [])
      else ext0
    let filename := token ++ ext
    Except.ok (trimTrailingSlash publicBaseURL ++ mediaSeg ++ filename,
      setKey filename fileData disk)

/-! ## Path cleaning (Go path/filepath, Unix rules) -/

/-- Split a byte string on a separator byte; chunks contain no separator. -/
def splitSep (sep : Nat) : Bytes → List Bytes
  | [] => [[]]
  | c :: rest =>
    match splitSep sep rest with
    | [] => [[]]
    | h :: t => if c = sep then [] :: h :: t else (c :: h) :: t

/-- Inverse of `splitSep`. -/
def intercalateSep (sep : Nat) : List Bytes → Bytes
  | [] => []
  | [x] => x
  | x :: y :: t => x ++ sep :: intercalateSep sep (y :: t)

/-- One path element of the lexical cleaning loop of `filepath.Clean`:
empty and "." elements are dropped; ".." pops the stack, except that at an
empty stack it is dropped when the path is rooted and pushed otherwise (it
is also pushed on top of an earlier ".."); anything else is pushed.  The
stack is most-recent-first. -/
def cleanStep (rooted : Bool) (stack : List Bytes) (e : Bytes) : List Bytes :=
  if e = [] ∨ e = [46] then stack
  else if e = [46, 46] then
    match stack with
    | [] => if rooted then [] else [[46, 46]]
    | top :: rest => if top = [46, 46] then [46, 46] :: top :: rest else rest
  else e :: stack

/-- Go `filepath.Clean` (Unix separator). -/
def cleanPath (p : Bytes) : Bytes :=
  if p = [] then [46]
  else
    let rooted := hasPrefixB p [47]
    let stack := (splitSep 47 p).foldl (cleanStep rooted) []
    let out := intercalateSep 47 stack.reverse
    if rooted then 47 :: out
    else if out = [] then [46] else out

/-- Go `filepath.Join(a, b)` (Unix): drop leading empty parts, join with a
separator, clean. -/
def joinPath (a b : Bytes) : Bytes :=
  if a = [] ∧ b = [] then []
  else if a = [] then cleanPath b
  else cleanPath (a ++ 47 :: b)

/-- `containsDotDot` from net/http (the guard at the top of
`http.ServeFile`): true when any field of `strings.FieldsFunc(v,
isSlashRune)` — the chunks of `v` between bytes 47 and 92 — equals "..".
`FieldsFunc` drops empty fields, but an empty field never equals "..", so
splitting on 47 and then on 92 and keeping empties decides the same
predicate; the `strings.Contains(v, "..")` fast path of the Go code is a
pure optimisation with the same value. -/
def containsDotDot (v : Bytes) : Bool :=
  (((splitSep 47 v).map (splitSep 92)).join).any (fun f => f == [46, 46])

/-- Outcome of the disk branch of `handleMediaServe`: the handler's own
404, `http.ServeFile`'s 400 "invalid URL path", or a file served. -/
inductive DiskServe where
  | notFound
  | badRequest
  | serveFile (path : Bytes)
deriving DecidableEq, Repr

/-- Disk branch of `handleMediaServe` (handlers.go):
`filePath := filepath.Join(UploadDir, filepath.Clean(token))`; respond 404
unless `filePath` has the string `filepath.Clean(UploadDir) + "/"` as a
prefix; otherwise call `http.ServeFile(w, r, filePath)`, which first
rejects the request with 400 when `r.URL.Path` contains a ".." path
element (`containsDotDot`) and otherwise serves `filePath` (what the
filesystem then returns for that path is outside the model).  `urlPath` is
the request's `r.URL.Path` and `token` the value the handler derived from
it (`TrimSpace` of the part after "/media/"). -/
def serveFromDisk (uploadDir urlPath token : Bytes) : DiskServe :=
  let filePath := joinPath uploadDir (cleanPath token)
  if hasPrefixB filePath (cleanPath uploadDir ++ [47]) = false then DiskServe.notFound
  else if containsDotDot urlPath = true then DiskServe.badRequest
  else DiskServe.serveFile filePath

/-! ## Semantic reading of paths, used to state what "inside the upload
directory" means independently of the string-prefix check.

A path denotes, relative to the process working directory: whether it is
rooted, how many times it climbs above its starting point, and the forward
segments then descended.  This is the standard resolution semantics of
`/`, `.` and `..` (for a rooted path, climbing above the root stays at the
root, as in POSIX). -/

/-- Truncate to 32 bits. -/
def w32 (n : Nat) : Nat := n % 4294967296

/-- 32-bit rotate right (argument below 2^32). -/
def rotr (n x : Nat) : Nat := w32 ((x >>> n) ||| (x <<< (32 - n)))

/-- 32-bit complement (argument below 2^32). -/
def not32 (x : Nat) : Nat := x ^^^ 4294967295

def bigSigma0 (x : Nat) : Nat := rotr 2 x ^^^ rotr 13 x ^^^ rotr 22 x

def bigSigma1 (x : Nat) : Nat := rotr 6 x ^^^ rotr 11 x ^^^ rotr 25 x

def smallSigma0 (x : Nat) : Nat := rotr 7 x ^^^ rotr 18 x ^^^ (x >>> 3)

def smallSigma1 (x : Nat) : Nat := rotr 17 x ^^^ rotr 19 x ^^^ (x >>> 10)

/-- The 64 SHA-256 round constants (decimal, FIPS 180-4 §4.2.2). -/
def sha256K : List Nat :=
  [1116352408, 1899447441, 3049323471, 3921009573, 961987163, 1508970993,
   2453635748, 2870763221, 3624381080, 310598401, 607225278, 1426881987,
   1925078388, 2162078206, 2614888103, 3248222580, 3835390401, 4022224774,
   264347078, 604807628, 770255983, 1249150122, 1555081692, 1996064986,
   2554220882, 2821834349, 2952996808, 3210313671, 3336571891, 3584528711,
   113926993, 338241895, 666307205, 773529912, 1294757372, 1396182291,
   1695183700, 1986661051, 2177026350, 2456956037, 2730485921, 2820302411,
   3259730800, 3345764771, 3516065817, 3600352804, 4094571909, 275423344,
   430227734, 506948616, 659060556, 883997877, 958139571, 1322822218,
   1537002063, 1747873779, 1955562222, 2024104815, 2227730452, 2361852424,
   2428436474, 2756734187, 3204031479, 3329325298]

/-- The SHA-256 initial hash state (decimal, FIPS 180-4 §5.3.3). -/
def sha256H0 : List Nat :=
  [1779033703, 3144134277, 1013904242, 2773480762,
   1359893119, 2600822924, 528734635, 1541459225]

/-- Big-endian 32-bit words from bytes. -/
def bytesToWords : Bytes → List Nat
  | a :: b :: c :: d :: rest => (((a * 256 + b) * 256 + c) * 256 + d) :: bytesToWords rest
  | _ => []

/-- Big-endian bytes of a 32-bit word. -/
def wordBytes (wd : Nat) : Bytes :=
  [wd / 16777216 % 256, wd / 65536 % 256, wd / 256 % 256, wd % 256]

/-- Extend the message schedule; the accumulator is most-recent-first. -/
def scheduleExtend : Nat → List Nat → List Nat
  | 0, acc => acc
  | n + 1, acc =>
    scheduleExtend n
      (w32 (smallSigma1 (acc.getD 1 0) + acc.getD 6 0 +
            smallSigma0 (acc.getD 14 0) + acc.getD 15 0) :: acc)

/-- The 64-entry message schedule of one block. -/
def schedule (block16 : List Nat) : List Nat := (scheduleExtend 48 block16.reverse).reverse

/-- One SHA-256 compression round; the state is the 8 working variables. -/
def compressRound (st : List Nat) (wk : Nat × Nat) : List Nat :=
  let a := st.getD 0 0
  let b := st.getD 1 0
  let c := st.getD 2 0
  let d := st.getD 3 0
  let e := st.getD 4 0
  let f := st.getD 5 0
  let g := st.getD 6 0
  let h := st.getD 7 0
  let t1 := w32 (h + bigSigma1 e + ((e &&& f) ^^^ (not32 e &&& g)) + wk.2 + wk.1)
  let t2 := w32 (bigSigma0 a + ((a &&& b) ^^^ (a &&& c) ^^^ (b &&& c)))
  [w32 (t1 + t2), a, b, c, w32 (d + t1), e, f, g]

/-- Compress one 64-byte block into the hash state. -/
def processBlock (H : List Nat) (block : Bytes) : List Nat :=
  let st := ((schedule (bytesToWords block)).zip sha256K).foldl compressRound H
  List.zipWith (fun x y => w32 (x + y)) H st

/-- Split into 64-byte blocks (fuel-based structural recursion; every step
consumes at least one byte, so `l.length` fuel always suffices). -/
def chunks64Aux : Nat → Bytes → List Bytes
  | 0, _ => []
  | _, [] => []
  | fuel + 1, c :: rest => ((c :: rest).take 64) :: chunks64Aux fuel ((c :: rest).drop 64)

/-- Split into 64-byte blocks. -/
def chunks64 (l : Bytes) : List Bytes := chunks64Aux l.length l

/-- 64-bit big-endian length field. -/
def be64 (n : Nat) : Bytes :=
  [n / 72057594037927936 % 256, n / 281474976710656 % 256, n / 1099511627776 % 256,
   n / 4294967296 % 256, n / 16777216 % 256, n / 65536 % 256, n / 256 % 256, n % 256]

/-- SHA-256 padding: 0x80, zeros to 56 mod 64, 8-byte bit length. -/
def sha256pad (msg : Bytes) : Bytes :=
  msg ++ 128 :: List.replicate ((119 - msg.length % 64) % 64) 0 ++ be64 (8 * msg.length)

/-- SHA-256 of a byte string. -/
def sha256 (msg : Bytes) : Bytes :=
  ((chunks64 (sha256pad msg)).foldl processBlock sha256H0).foldr
    (fun wd acc => wordBytes wd ++ acc) []

/-- HMAC-SHA-256 (crypto/hmac with sha256.New): hash an over-long key, pad
to the 64-byte block size, inner pad 0x36, outer pad 0x5c. -/
def hmacSha256 (key msg : Bytes) : Bytes :=
  let k0 := if 64 < key.length then sha256 key else key
  let kpad := k0 ++ List.replicate (64 - k0.length) 0
  sha256 ((kpad.map (fun x => x ^^^ 92)) ++ sha256 ((kpad.map (fun x => x ^^^ 54)) ++ msg))

/-- The base64url alphabet of `base64.URLEncoding`. -/
def b64Alphabet : Bytes :=
  [65, 66, 67, 68, 69, 70, 71, 72, 73, 74, 75, 76, 77, 78, 79, 80, 81, 82, 83, 84, 85, 86,
   87, 88, 89, 90, 97, 98, 99, 100, 101, 102, 103, 104, 105, 106, 107, 108, 109, 110, 111,
   112, 113, 114, 115, 116, 117, 118, 119, 120, 121, 122, 48, 49, 50, 51, 52, 53, 54, 55,
   56, 57, 45, 95]

/-- One alphabet byte. -/
def b64Char (n : Nat) : Nat := b64Alphabet.getD n 65

/-- `base64.URLEncoding.EncodeToString`: standard padded base64 over the
URL-safe alphabet (61 is the pad byte 0x3d). -/
def base64urlEncode : Bytes → Bytes
  | [] => []
  | [a] => [b64Char (a / 4), b64Char (a % 4 * 16), 61, 61]
  | [a, b] => [b64Char (a / 4), b64Char (a % 4 * 16 + b / 16), b64Char (b % 16 * 4), 61]
  | a :: b :: c :: rest =>
    b64Char (a / 4) :: b64Char (a % 4 * 16 + b / 16) :: b64Char (b % 16 * 4 + c / 64) ::
      b64Char (c % 64) :: base64urlEncode rest

/-! ## Session tokens and cookies (auth.go) -/

/-- `generateSessionToken` (auth.go): 32 random bytes, base64url-encoded;
the `rand.Read` error is returned. -/
def generateSessionToken (rand : Option Bytes) : Except Unit Bytes :=
  match rand with
  | none => Except.error ()
  | some b => Except.ok (base64urlEncode b)

/-- `signSessionToken` (auth.go): base64url of HMAC-SHA-256 keyed by the
server secret over the token. -/
def signSessionToken (token secret : Bytes) : Bytes :=
  base64urlEncode (hmacSha256 secret token)

/-- `verifySessionToken` (auth.go): recompute the signature and compare
byte-for-byte (`hmac.Equal` is constant-time byte equality). -/
def verifySessionToken (token signature secret : Bytes) : Bool :=
  signature == signSessionToken token secret

/-- The cookie value `fmt.Sprintf("%s.%s.%s", token, signature, userInfo)`. -/
def sessionCookieValue (token signature userInfo : Bytes) : Bytes :=
  token ++ 46 :: signature ++ 46 :: userInfo

/-- `setSessionCookie` (auth.go): generate a token (propagating the entropy
error), sign it, and compose the cookie value. -/
def setSessionCookie (rand : Option Bytes) (userInfo secret : Bytes) : Except Unit Bytes :=
  match generateSessionToken rand with
  | Except.error e => Except.error e
  | Except.ok token =>
    Except.ok (sessionCookieValue token (signSessionToken token secret) userInfo)

/-- First split of Go `strings.SplitN` at a one-byte separator. -/
def splitOnce (sep : Nat) : Bytes → Option (Bytes × Bytes)
  | [] => none
  | c :: rest =>
    if c = sep then some ([], rest)
    else match splitOnce sep rest with
      | none => none
      | some (a, r) => some (c :: a, r)

/-- Go `strings.SplitN(s, sep, n)` for a one-byte separator: at most `n`
parts, the last part taking the unsplit remainder. -/
def splitNB (sep : Nat) : Nat → Bytes → List Bytes
  | 0, _ => []
  | 1, s => [s]
  | n + 2, s =>
    match splitOnce sep s with
    | none => [s]
    | some (a, r) => a :: splitNB sep (n + 1) r

/-- The cookie-verification core of `isAuthenticated` (auth.go): split the
cookie value into at most three dot-separated parts; reject unless there
are exactly three; verify the signature over the token. -/
def isAuthenticatedCookie (value secret : Bytes) : Bool :=
  match splitNB 46 3 value with
  | [t, s, _] => verifySessionToken t s secret
  | _ => false

/-- Flip bit `b` of byte `i` of a byte string. -/
def flipBit (i b : Nat) (s : Bytes) : Bytes := s.set i (s.getD i 0 ^^^ 2 ^ b)

/-! ## Backend selection and the full upload / serve dispatch -/

/-- The full mutable state of `App`: the in-memory map and the disk files. -/
structure AppState where
  uploadedFiles : MemFiles
  diskFiles : DiskFiles
deriving DecidableEq, Repr

/-- `handleFileUpload` (auth.go): `if a.Hipaa || a.UploadDir == ""` store in
memory, else on disk. -/
def handleFileUpload (hipaa : Bool) (uploadDir : Bytes) (rand : Option Bytes) (now : Nat)
    (publicBaseURL fileData ctypeHeader origFilename : Bytes) (st : AppState) :
    Except Unit Bytes × AppState :=
  if hipaa = true ∨ uploadDir = [] then
    match storeFileInMemory rand now publicBaseURL fileData ctypeHeader st.uploadedFiles with
    | Except.error e => (Except.error e, st)
    | Except.ok (url, files2) => (Except.ok url, { st with uploadedFiles := files2 })
  else
    match storeFileToDisk rand publicBaseURL fileData ctypeHeader origFilename st.diskFiles with
    | Except.error e => (Except.error e, st)
    | Except.ok (url, disk2) => (Except.ok url, { st with diskFiles := disk2 })

/-- ASCII whitespace recognised by `strings.TrimSpace`. -/
def isSpaceB (c : Nat) : Bool := c == 32 || c == 9 || c == 10 || c == 11 || c == 12 || c == 13

/-- `strings.TrimSpace` over ASCII bytes. -/
def trimSpaceB (s : Bytes) : Bytes :=
  ((s.dropWhile isSpaceB).reverse.dropWhile isSpaceB).reverse

/-- What `handleMediaServe` sends for a GET. -/
inductive MediaServed where
  | notFound
  | badRequest
  | disk (path : Bytes)
  | mem (data : Bytes) (ctypeHeader : Option Bytes)
deriving DecidableEq, Repr

/-- `handleMediaServe` (handlers.go) on a GET: `urlToken` is the part of
`r.URL.Path` after "/media/" (so `r.URL.Path = "/media/" ++ urlToken`);
the handler trims it, answers 404 when empty, and `if !a.Hipaa &&
a.UploadDir != ""` serves from disk (through `http.ServeFile`, which sees
the untrimmed `r.URL.Path`), else from the in-memory map (with its
lazy-expiry deletion). -/
def handleMediaServe (hipaa : Bool) (uploadDir : Bytes) (now : Nat)
    (urlToken : Bytes) (st : AppState) : MediaServed × AppState :=
  let token := trimSpaceB urlToken
  if token = [] then (MediaServed.notFound, st)
  else if hipaa = false ∧ uploadDir ≠ [] then
    match serveFromDisk uploadDir (mediaSeg ++ urlToken) token with
    | DiskServe.notFound => (MediaServed.notFound, st)
    | DiskServe.badRequest => (MediaServed.badRequest, st)
    | DiskServe.serveFile p => (MediaServed.disk p, st)
  else
    match serveFromMemory now token st.uploadedFiles with
    | (ServeResult.notFound, files2) =>
      (MediaServed.notFound, { st with uploadedFiles := files2 })
    | (ServeResult.content d c, files2) =>
      (MediaServed.mem d c, { st with uploadedFiles := files2 })

/-! ## Redirect validation (auth.go) -/

/-- `handlePasswordLogin` (auth.go): replace the redirect target by "/"
when it is empty, does not start with "/", or starts with "//". -/
def validatePasswordRedirect (r : Bytes) : Bytes :=
  if r == [] || !hasPrefixB r [47] || hasPrefixB r [47, 47] then [47] else r

/-- `handleOAuthCallback` (auth.go): the post-login target defaults to "/"
and the `oauth_redirect` cookie is honoured only when it starts with "/"
and not with "//". -/
def oauthCallbackRedirect (cookie : Option Bytes) : Bytes :=
  match cookie with
  | none => [47]
  | some v => if hasPrefixB v [47] && !hasPrefixB v [47, 47] then v else [47]

/-! ## OAuth login and callback (auth.go) -/

/-- `handleOAuthLogin` (auth.go): abort when the provider is not
configured; otherwise run `state, _ := generateSessionToken()` — the error
return is discarded, so an entropy failure leaves `state` the empty string
— and proceed to set the state cookie and redirect.  The returned value is
the anti-forgery state actually used, `none` when the handler aborted. -/
def handleOAuthLogin (providerConfigured : Bool) (rand : Option Bytes) : Option Bytes :=
  if providerConfigured = false then none
  else
    some (match generateSessionToken rand with
      | Except.ok s => s
      | Except.error _ => [])

/-- The request-dependent inputs of `handleOAuthCallback`. -/
structure CallbackEnv where
  stateCookie : Option Bytes
  queryState : Bytes
  providerConfigured : Bool
  exchangeSucceeds : Bool
  tokenValid : Bool
  sessionRand : Option Bytes
  redirectCookie : Option Bytes
deriving DecidableEq, Repr

/-- How `handleOAuthCallback` ends. -/
inductive CallbackResult where
  | invalidState
  | providerNotConfigured
  | exchangeFailed
  | invalidToken
  | sessionCreateFailed
  | success (redirect : Bytes)
deriving DecidableEq, Repr

/-- `handleOAuthCallback` (auth.go), with a flag recording whether the
authorization-code exchange with the provider was ever attempted: reject
with "invalid state" when the state cookie is absent or differs from the
query state; then check provider configuration; then exchange the code;
then validate the provider token; then issue the session cookie; finally
redirect through the validated `oauth_redirect` target. -/
def handleOAuthCallback (env : CallbackEnv) : CallbackResult × Bool :=
  match env.stateCookie with
  | none => (CallbackResult.invalidState, false)
  | some sv =>
    if sv ≠ env.queryState then (CallbackResult.invalidState, false)
    else if env.providerConfigured = false then (CallbackResult.providerNotConfigured, false)
    else if env.exchangeSucceeds = false then (CallbackResult.exchangeFailed, true)
    else if env.tokenValid = false then (CallbackResult.invalidToken, true)
    else
      match env.sessionRand with
      | none => (CallbackResult.sessionCreateFailed, true)
      | some _ => (CallbackResult.success (oauthCallbackRedirect env.redirectCookie), true)

/-! ## Configuration loading (LoadConfig) -/

/-- The session-secret defaulting in `LoadConfig`: when `SESSION_SECRET` is
empty and `AUTH_PASSWORD` is not, log a loud warning and derive
`"change-me-" + authPassword[:min(len(authPassword), 10)]`.  The boolean
records whether the warning was emitted. -/
def deriveSessionSecret (authPassword sessionSecret : Bytes) : Bytes × Bool :=
  if sessionSecret = [] ∧ authPassword ≠ [] then
    (changeMe ++ authPassword.take (min authPassword.length 10), true)
  else (sessionSecret, false)

end FaxUI

namespace FaxUI

/-! ## Lemmas about the map model -/

theorem lookupKey_eraseKey_self {α : Type} (k : Bytes) (m : List (Bytes × α)) :
    lookupKey k (eraseKey k m) = none := by
  induction m with
  | nil => rfl
  | cons e rest ih =>
    by_cases h : e.1 = k
    · simp [eraseKey, h, ih]
    · simp [eraseKey, h, lookupKey, ih]

theorem lookupKey_setKey_self {α : Type} (k : Bytes) (v : α) (m : List (Bytes × α)) :
    lookupKey k (setKey k v m) = some v := by
  simp [setKey, lookupKey]

/-! ## C1, C2, C10 -/

/-- C1: a payload stored through the memory backend (succeeding store, URL
`.../media/<token>`) is returned verbatim — same bytes, same content type,
with "application/octet-stream" substituted when the content type was absent
at store time — by any retrieval that happens before `expiresAt`. -/
theorem mem_store_retrieve_roundtrip
    (randBytes fileData ctypeHeader base : Bytes) (now t : Nat) (files : MemFiles)
    (ht : t < now + 30 * 60) :
    ∃ files2,
      storeFileInMemory (some randBytes) now base fileData ctypeHeader files =
        Except.ok (trimTrailingSlash base ++ mediaSeg ++ hexEncode (randBytes.take 32), files2) ∧
      (serveFromMemory t (hexEncode (randBytes.take 32)) files2).1 =
        ServeResult.content fileData
          (some (if ctypeHeader = [] then octetStream else ctypeHeader)) := by
  refine ⟨_, rfl, ?_⟩
  rw [serveFromMemory]
  rw [lookupKey_setKey_self]
  simp only
  rw [if_neg (by omega)]
  by_cases hc : ctypeHeader = []
  · simp [hc, show octetStream ≠ [] by decide]
  · simp [hc]

/-- Witness for C1 at a concrete store/retrieve pair. -/
theorem mem_store_retrieve_roundtrip_witness :
    (100 : Nat) < 0 + 30 * 60 ∧
    ∃ files2,
      storeFileInMemory (some [1, 2]) 0 [104] [97, 98, 99] [116] [] =
        Except.ok (trimTrailingSlash [104] ++ mediaSeg ++ hexEncode ([1, 2].take 32), files2) ∧
      (serveFromMemory 100 (hexEncode ([1, 2].take 32)) files2).1 =
        ServeResult.content [97, 98, 99] (some (if ([116] : Bytes) = [] then octetStream else [116])) :=
  ⟨by decide, mem_store_retrieve_roundtrip [1, 2] [97, 98, 99] [116] [104] 0 100 [] (by decide)⟩

/-- C2: once `expiresAt < now`, retrieving the token answers 404 and deletes
the entry from the map — lazy expiry on access alone, with no assumption
that the background sweep has run over the map `files`. -/
theorem mem_retrieve_expired_not_found
    (now : Nat) (token : Bytes) (f : UploadedFile) (files : MemFiles)
    (hlook : lookupKey token files = some f) (hexp : f.expiresAt < now) :
    serveFromMemory now token files = (ServeResult.notFound, eraseKey token files) ∧
    lookupKey token (serveFromMemory now token files).2 = none := by
  have hserve : serveFromMemory now token files = (ServeResult.notFound, eraseKey token files) := by
    rw [serveFromMemory, hlook]
    simp [if_pos hexp]
  refine ⟨hserve, ?_⟩
  rw [hserve]
  exact lookupKey_eraseKey_self token files

/-- Witness for C2 at a concrete expired entry. -/
theorem mem_retrieve_expired_not_found_witness :
    serveFromMemory 10 [5] [([5], UploadedFile.mk [1] [2] 3)] =
      (ServeResult.notFound, eraseKey [5] [([5], UploadedFile.mk [1] [2] 3)]) ∧
    lookupKey [5] (serveFromMemory 10 [5] [([5], UploadedFile.mk [1] [2] 3)]).2 = none :=
  mem_retrieve_expired_not_found 10 [5] (UploadedFile.mk [1] [2] 3)
    [([5], UploadedFile.mk [1] [2] 3)] (by decide) (by decide)

/-- C10: a sweep at time `now` keeps exactly the entries whose `expiresAt`
has not strictly passed; every surviving entry is kept whole (same token,
bytes, content type and expiry), every entry with `expiresAt < now` is gone. -/
theorem cleanup_removes_exactly_expired (now : Nat) (files : MemFiles)
    (e : Bytes × UploadedFile) :
    e ∈ cleanupExpiredFiles now files ↔ e ∈ files ∧ ¬ e.2.expiresAt < now := by
  induction files with
  | nil => simp [cleanupExpiredFiles]
  | cons f rest ih =>
    by_cases h : f.2.expiresAt < now
    · rw [cleanupExpiredFiles, if_pos h]
      constructor
      · intro hm
        rcases (ih.mp hm) with ⟨h1, h2⟩
        exact ⟨List.mem_cons_of_mem _ h1, h2⟩
      · rintro ⟨h1, h2⟩
        rcases List.mem_cons.mp h1 with rfl | h3
        · exact absurd h h2
        · exact ih.mpr ⟨h3, h2⟩
    · rw [cleanupExpiredFiles, if_neg h]
      constructor
      · intro hm
        rcases List.mem_cons.mp hm with rfl | h3
        · exact ⟨List.mem_cons_self _ _, h⟩
        · rcases ih.mp h3 with ⟨h1, h2⟩
          exact ⟨List.mem_cons_of_mem _ h1, h2⟩
      · rintro ⟨h1, h2⟩
        rcases List.mem_cons.mp h1 with rfl | h3
        · exact List.mem_cons_self _ _
        · exact List.mem_cons_of_mem _ (ih.mpr ⟨h3, h2⟩)

/-! ## C4, C6, C7, C8, C9 -/

/-- C4: with compliance (HIPAA) mode on, the memory backend wins even when
an upload directory is configured: the upload lands in the in-memory map at
the drawn token with the defaulted content type, the disk files are
untouched (for any randomness outcome), and retrieval dispatches exactly as
it would with no upload directory at all, i.e. from memory; moreover with
compliance mode on or no upload directory configured, an upload never
touches the disk files. -/
theorem hipaa_forces_memory_backend
    (uploadDir randBytes publicBaseURL fileData ctypeHeader origFilename urlToken : Bytes)
    (rand : Option Bytes) (now : Nat) (st : AppState) (h2 : Bool) :
    handleFileUpload true uploadDir (some randBytes) now publicBaseURL fileData ctypeHeader
        origFilename st =
      (Except.ok (trimTrailingSlash publicBaseURL ++ mediaSeg ++ hexEncode (randBytes.take 32)),
       AppState.mk
         (setKey (hexEncode (randBytes.take 32))
           (UploadedFile.mk fileData (if ctypeHeader = [] then octetStream else ctypeHeader)
             (now + 30 * 60)) st.uploadedFiles)
         st.diskFiles) ∧
    (handleFileUpload true uploadDir rand now publicBaseURL fileData ctypeHeader
        origFilename st).2.diskFiles = st.diskFiles ∧
    handleMediaServe true uploadDir now urlToken st = handleMediaServe true [] now urlToken st ∧
    (handleFileUpload h2 [] rand now publicBaseURL fileData ctypeHeader
        origFilename st).2.diskFiles = st.diskFiles := by
  refine ⟨?_, ?_, ?_, ?_⟩
  · simp [handleFileUpload, storeFileInMemory, generateSecureToken]
  · cases rand <;> simp [handleFileUpload, storeFileInMemory, generateSecureToken]
  · simp [handleMediaServe]
  · cases rand <;> cases h2 <;>
      simp [handleFileUpload, storeFileInMemory, generateSecureToken]

/-- C6: the two media-store operations and session issuance propagate an
entropy-source failure as an error of the calling operation, but
`handleOAuthLogin` discards the error of `generateSessionToken` (the Go
line `state, _ := generateSessionToken()`) and proceeds with an **empty**
anti-forgery state value instead of failing. -/
theorem token_generator_failure_handling :
    handleOAuthLogin true none = some [] ∧
    generateSessionToken none = Except.error () ∧
    generateSecureToken 32 none = Except.error () ∧
    (∀ userInfo secret, setSessionCookie none userInfo secret = Except.error ()) ∧
    (∀ now base d ct files, storeFileInMemory none now base d ct files = Except.error ()) ∧
    (∀ base d ct fn disk, storeFileToDisk none base d ct fn disk = Except.error ()) :=
  ⟨rfl, rfl, rfl, fun _ _ => rfl, fun _ _ _ _ _ => rfl, fun _ _ _ _ _ => rfl⟩

/-- C7: both the password-login redirect and the delegated-identity
completion redirect honour a requested target exactly when it starts with
"/" but not with "//"; every other target (empty, "//…", "http://…", or an
absent cookie) is replaced by "/". -/
theorem redirect_targets_sanitized (r : Bytes) :
    validatePasswordRedirect r =
      (if (hasPrefixB r [47] && !hasPrefixB r [47, 47]) = true then r else [47]) ∧
    oauthCallbackRedirect (some r) =
      (if (hasPrefixB r [47] && !hasPrefixB r [47, 47]) = true then r else [47]) ∧
    oauthCallbackRedirect none = [47] := by
  refine ⟨?_, rfl, rfl⟩
  cases r with
  | nil => simp [validatePasswordRedirect, hasPrefixB]
  | cons c s =>
    cases hh1 : hasPrefixB (c :: s) [47] <;> cases hh2 : hasPrefixB (c :: s) [47, 47] <;>
      simp [validatePasswordRedirect, hh1, hh2]

/-- C8: whenever the state cookie is absent, or its value differs from the
state returned in the query, the delegated-identity callback ends in the
"invalid state" rejection and the authorization-code exchange is never
attempted — whatever the would-be outcome of the exchange and of token
validation. -/
theorem oauth_state_mismatch_rejected (env : CallbackEnv)
    (h : ∀ sv, env.stateCookie = some sv → sv ≠ env.queryState) :
    handleOAuthCallback env = (CallbackResult.invalidState, false) := by
  rw [handleOAuthCallback]
  cases hc : env.stateCookie with
  | none => rfl
  | some sv =>
    simp only
    rw [if_pos (h sv hc)]

/-- Witness for C8: a mismatching state with an otherwise fully valid
exchange is still rejected without attempting the exchange. -/
theorem oauth_state_mismatch_rejected_witness :
    handleOAuthCallback (CallbackEnv.mk (some [49]) [50] true true true (some [51]) none) =
      (CallbackResult.invalidState, false) :=
  oauth_state_mismatch_rejected _
    (by intro sv hsv; injection hsv with h2; rw [← h2]; decide)

/-- C9: when a password is configured and no session signing secret is,
configuration loading warns and derives the secret as the fixed function
"change-me-" ++ the first (at most ten) bytes of the password — a value
depending on nothing but the environment, hence identical on every process
start with the same environment. -/
theorem session_secret_deterministic_default (authPassword : Bytes) (hp : authPassword ≠ []) :
    deriveSessionSecret authPassword [] =
      (changeMe ++ authPassword.take (min authPassword.length 10), true) := by
  rw [deriveSessionSecret, if_pos (And.intro rfl hp)]

/-- Witness for C9 at the password "password". -/
theorem session_secret_deterministic_default_witness :
    deriveSessionSecret [112, 97, 115, 115, 119, 111, 114, 100] [] =
      (changeMe ++ ([112, 97, 115, 115, 119, 111, 114, 100] : Bytes).take
        (min ([112, 97, 115, 115, 119, 111, 114, 100] : Bytes).length 10), true) :=
  session_secret_deterministic_default [112, 97, 115, 115, 119, 111, 114, 100] (by decide)

/-! ## Lemmas towards C5 -/

/-- Flipping a bit changes a natural number. -/
theorem xor_pow2_ne (x b : Nat) : x ^^^ 2 ^ b ≠ x := by
  intro h
  have h2 : x ^^^ (x ^^^ 2 ^ b) = x ^^^ x := by rw [h]
  rw [← Nat.xor_assoc, Nat.xor_self, Nat.zero_xor] at h2
  exact absurd h2 (pow_ne_zero b (by norm_num))

/-- No byte of the base64url alphabet is the dot. -/
theorem b64Char_ne_dot (n : Nat) : b64Char n ≠ 46 := by
  rw [b64Char]
  rcases Nat.lt_or_ge n b64Alphabet.length with h | h
  · rw [List.getD_eq_getElem _ _ h]
    have hm : b64Alphabet[n] ∈ b64Alphabet := List.getElem_mem h
    intro he
    rw [he] at hm
    revert hm
    decide
  · rw [List.getD_eq_default _ _ h]
    decide

/-- A base64url encoding never contains the dot byte. -/
theorem dot_not_mem_base64 : ∀ l : Bytes, (46 : Nat) ∉ base64urlEncode l
  | [] => by simp [base64urlEncode]
  | [a] => by
    simp only [base64urlEncode, List.mem_cons, List.not_mem_nil, or_false]
    push_neg
    exact ⟨Ne.symm (b64Char_ne_dot _), Ne.symm (b64Char_ne_dot _), by decide, by decide⟩
  | [a, b] => by
    simp only [base64urlEncode, List.mem_cons, List.not_mem_nil, or_false]
    push_neg
    exact ⟨Ne.symm (b64Char_ne_dot _), Ne.symm (b64Char_ne_dot _),
      Ne.symm (b64Char_ne_dot _), by decide⟩
  | a :: b :: c :: rest => by
    have ih := dot_not_mem_base64 rest
    simp only [base64urlEncode, List.mem_cons]
    push_neg
    exact ⟨Ne.symm (b64Char_ne_dot _), Ne.symm (b64Char_ne_dot _),
      Ne.symm (b64Char_ne_dot _), Ne.symm (b64Char_ne_dot _), ih⟩

/-- `splitOnce` splits at the first separator. -/
theorem splitOnce_append : ∀ a r : Bytes, (46 : Nat) ∉ a →
    splitOnce 46 (a ++ 46 :: r) = some (a, r)
  | [], r, _ => by simp [splitOnce]
  | c :: s, r, ha => by
    have hc : ¬ c = 46 := fun h => ha (by rw [h]; exact List.mem_cons_self _ _)
    have ih := splitOnce_append s r (fun hm => ha (List.mem_cons_of_mem _ hm))
    simp [splitOnce, hc, ih]

/-- `strings.SplitN(_, ".", 3)` recovers the three components of a cookie
value whose first two components are dot-free. -/
theorem splitNB_three (t s r : Bytes) (ht : (46 : Nat) ∉ t) (hs : (46 : Nat) ∉ s) :
    splitNB 46 3 (t ++ (46 :: s) ++ (46 :: r)) = [t, s, r] := by
  have hshape : t ++ (46 :: s) ++ (46 :: r) = t ++ 46 :: (s ++ 46 :: r) := by
    simp [List.cons_append, List.append_assoc]
  have e3 : ∀ x : Bytes, splitNB 46 3 x =
      (match splitOnce 46 x with
       | none => [x]
       | some (a, rest) => a :: splitNB 46 2 rest) := fun _ => rfl
  rw [hshape, e3, splitOnce_append t _ ht]
  show t :: splitNB 46 2 (s ++ 46 :: r) = [t, s, r]
  have e2 : ∀ x : Bytes, splitNB 46 2 x =
      (match splitOnce 46 x with
       | none => [x]
       | some (a, rest) => a :: splitNB 46 1 rest) := fun _ => rfl
  rw [e2, splitOnce_append s r hs]
  rfl

/-! ## C5 -/

/-- C5: an issued cookie `token.signature.label` — the token any base64url
encoding of drawn bytes, the signature computed with the same server secret
— verifies, for every label and secret; and flipping any single bit of any
byte of its signature part makes verification fail. -/
theorem session_cookie_verifies_and_bitflip_fails
    (randBytes userInfo secret : Bytes) (i b : Nat)
    (hi : i < (signSessionToken (base64urlEncode randBytes) secret).length)
    (_hb : b < 8) :
    isAuthenticatedCookie
      (sessionCookieValue (base64urlEncode randBytes)
        (signSessionToken (base64urlEncode randBytes) secret) userInfo) secret = true ∧
    isAuthenticatedCookie
      (sessionCookieValue (base64urlEncode randBytes)
        (flipBit i b (signSessionToken (base64urlEncode randBytes) secret)) userInfo)
      secret = false := by
  set tok := base64urlEncode randBytes with htok
  set sig := signSessionToken tok secret with hsig
  have hTokDot : (46 : Nat) ∉ tok := dot_not_mem_base64 randBytes
  have hSigDot : (46 : Nat) ∉ sig := hsig ▸ dot_not_mem_base64 (hmacSha256 secret tok)
  constructor
  · rw [isAuthenticatedCookie, sessionCookieValue, splitNB_three tok sig userInfo hTokDot hSigDot]
    show verifySessionToken tok sig secret = true
    rw [verifySessionToken, hsig]
    exact beq_self_eq_true _
  · by_cases hv : sig.getD i 0 ^^^ 2 ^ b = 46
    · -- the flip produced a dot: the signature part of the split is a
      -- strict prefix of the real signature, hence shorter, hence rejected
      have hset : flipBit i b sig = sig.take i ++ 46 :: sig.drop (i + 1) := by
        rw [flipBit, hv]
        exact List.set_eq_take_cons_drop _ hi
      have hTake : (46 : Nat) ∉ sig.take i := fun hm => hSigDot (List.mem_of_mem_take hm)
      rw [isAuthenticatedCookie, sessionCookieValue, hset]
      have hshape : tok ++ (46 :: (sig.take i ++ 46 :: sig.drop (i + 1))) ++ (46 :: userInfo) =
          tok ++ (46 :: sig.take i) ++ (46 :: (sig.drop (i + 1) ++ (46 :: userInfo))) := by
        simp [List.cons_append, List.append_assoc]
      rw [hshape, splitNB_three tok (sig.take i) _ hTokDot hTake]
      show verifySessionToken tok (sig.take i) secret = false
      rw [verifySessionToken, ← hsig]
      refine beq_eq_false_iff_ne.mpr (fun h => ?_)
      have hlen := congrArg List.length h
      rw [List.length_take] at hlen
      omega
    · -- the flipped byte is not a dot: the signature part of the split is
      -- the flipped signature, which differs from the real one at byte i
      have hFlipDot : (46 : Nat) ∉ flipBit i b sig := by
        intro hm
        rcases List.mem_or_eq_of_mem_set hm with hm2 | hm2
        · exact hSigDot hm2
        · exact hv hm2.symm
      rw [isAuthenticatedCookie, sessionCookieValue,
        splitNB_three tok (flipBit i b sig) userInfo hTokDot hFlipDot]
      show verifySessionToken tok (flipBit i b sig) secret = false
      rw [verifySessionToken, ← hsig]
      refine beq_eq_false_iff_ne.mpr (fun h => ?_)
      have h2 : sig.set i (sig.getD i 0 ^^^ 2 ^ b) = sig := h
      have hval := congrArg (fun l => List.getD l i 0) h2
      simp only at hval
      rw [List.getD_eq_getElem _ _
        (by simp [hi] : i < (sig.set i (sig.getD i 0 ^^^ 2 ^ b)).length)] at hval
      simp only [List.getElem_set_self] at hval
      exact xor_pow2_ne _ b hval

set_option maxRecDepth 1000000 in
/-- Witness for C5: a concrete cookie issued from three random bytes under
a one-byte secret verifies, and flipping bit 0 of signature byte 0 fails. -/
theorem session_cookie_verifies_and_bitflip_fails_witness :
    0 < (signSessionToken (base64urlEncode [1, 2, 3]) [9]).length ∧ 0 < 8 ∧
    (isAuthenticatedCookie
      (sessionCookieValue (base64urlEncode [1, 2, 3])
        (signSessionToken (base64urlEncode [1, 2, 3]) [9]) [108]) [9] = true ∧
    isAuthenticatedCookie
      (sessionCookieValue (base64urlEncode [1, 2, 3])
        (flipBit 0 0 (signSessionToken (base64urlEncode [1, 2, 3]) [9])) [108])
      [9] = false) :=
  ⟨by decide, by decide,
   session_cookie_verifies_and_bitflip_fails [1, 2, 3] [108] [9] 0 0 (by decide) (by decide)⟩

/-! ## Lemmas on byte strings and path splitting, towards C3 -/

end FaxUI
